import Mathlib

/-!
# Verification of the CO₂ dashboard forecasting subsystem

Shallow embedding of `src/src/pages/timeseries/forecast.py` (`forecast_series`)
and `src/scripts/generate_forecasts.py` (`generate_forecasts`), together with
proofs of the specification claims about them.

Modelling decisions, mirroring the Python source:

* A series is two aligned lists: `years : List Int` and
  `values : List (Option ℚ)`, where `none` stands for a missing value (`NaN`).
  Floating-point values are modelled as rationals; the claims under scrutiny
  concern data flow, row structure and exact formulas (`mean ± 0.1·|mean|`),
  not rounding behaviour.
* The external statistics library (`statsmodels`'s `SARIMAX`) is an unknown
  deterministic oracle, a parameter `SarimaxLib M`:
  `fit` models the `SARIMAX(...)` construction plus `model.fit(...)` call,
  which the source wraps in `try/except` — it may fail (raise);
  `predictAt m i` models the fitted model's step-`i` forecast triple
  (`predicted_mean[i]`, row `i` of `conf_int(alpha=0.05)`), which the source
  computes *outside* the `try` via `res.get_forecast(steps)` — a per-call
  outcome that may also fail (raise).  `get_forecast` of a state-space model
  computes forecasts step by step, so the step-`i` value does not depend on
  the total horizon requested; the per-step oracle captures exactly that.
* `pandas` index semantics: `series.index.union(pred_index)` on distinct
  integer indexes returns the sorted deduplicated union (modelled with
  `Finset.sort`); `series.reindex(ix)` is lookup by year label, `NaN` when
  absent.  The claims all restrict attention to duplicate-free input years
  (the spec's data model states "Years are unique within a series"), which
  the theorems mirror with `years.Nodup` hypotheses where needed.
* Raising an exception is modelled by `Except`: `FcError.NoDataError` is the
  spec's name for the `ValueError("No non-missing values to fit")` raise, and
  `FcError.externalError` is an uncaught exception escaping from the
  post-fit forecast/confidence-interval computation.
-/

deriving instance DecidableEq for Except

namespace CO2Dash

/-- Errors that can escape `forecast_series`: the spec's `NoDataError`
(the `raise ValueError("No non-missing values to fit")` at forecast.py:28),
or an external-library exception raised outside the `try` block. -/
inductive FcError where
  | NoDataError : FcError
  | externalError : FcError
deriving DecidableEq, Repr

/-- One row of the result DataFrame of `forecast_series`: columns
`year`, `y` (observed, `NaN` ↦ `none`), `y_pred`, `y_lower`, `y_upper`. -/
structure ForecastRow where
  year : Int
  y : Option ℚ
  y_pred : Option ℚ
  y_lower : Option ℚ
  y_upper : Option ℚ
deriving DecidableEq, Repr

/-- Oracle for the external `statsmodels` SARIMAX library.  `M` is the type of
fitted models.  `fit data order` is the outcome of
`SARIMAX(series_clean, order=order, ...).fit(disp=False)`;
`predictAt m i` is the outcome of asking the fitted model for its step-`i`
point forecast and 95% confidence bounds (`mean, lower, upper`). -/
structure SarimaxLib (M : Type) where
  fit : List (Int × ℚ) → Int × Int × Int → Except Unit M
  predictAt : M → Nat → Except Unit (ℚ × ℚ × ℚ)

/-- `series.dropna()`: the (year, value) pairs whose value is non-missing,
in input order. -/
def cleanSeries (years : List Int) (values : List (Option ℚ)) :
    List (Int × ℚ) :=
  (years.zip values).filterMap fun p => p.2.map fun v => (p.1, v)

/-- `series.reindex(...)` lookup: the observed value stored at year `yr`
(`none` when the year is absent or its value is missing). -/
def lookupVal (years : List Int) (values : List (Option ℚ)) (yr : Int) :
    Option ℚ :=
  ((years.zip values).find? fun p => p.1 == yr).bind fun p => p.2

/-- `last_year = int(series_clean.index.max())`. -/
def lastYear (clean : List (Int × ℚ)) : Int :=
  ((clean.map Prod.fst).maximum).unbot' 0

/-- `forecast_years = np.arange(last_year + 1, last_year + 1 + steps)`. -/
def forecastYears (last : Int) (steps : Nat) : List Int :=
  (List.range steps).map fun i : Nat => last + 1 + (i : Int)

/-- `series.index.union(pred_index)`: sorted deduplicated union of the input
years and the forecast years. -/
def allYears (years : List Int) (last : Int) (steps : Nat) : List Int :=
  ((years ++ forecastYears last steps).dedup).insertionSort (· ≤ ·)

/-- The row the assembled DataFrame holds at year `yr`: observed value from
the reindexed input series; forecast columns populated (from the per-step
triple source `fc`) exactly on the forecast index, `NaN` elsewhere. -/
def rowAt (years : List Int) (values : List (Option ℚ)) (last : Int)
    (steps : Nat) (fc : Nat → ℚ × ℚ × ℚ) (yr : Int) : ForecastRow :=
  if yr ∈ forecastYears last steps then
    let t := fc (yr - (last + 1)).toNat
    { year := yr, y := lookupVal years values yr,
      y_pred := some t.1, y_lower := some t.2.1, y_upper := some t.2.2 }
  else
    { year := yr, y := lookupVal years values yr,
      y_pred := none, y_lower := none, y_upper := none }

/-- Assembly of the result DataFrame (both branches of the source build the
same shape: union index, reindexed `y`, forecast columns set on
`forecast_years` only). -/
def buildRows (years : List Int) (values : List (Option ℚ)) (last : Int)
    (steps : Nat) (fc : Nat → ℚ × ℚ × ℚ) : List ForecastRow :=
  (allYears years last steps).map (rowAt years values last steps fc)

/-- `series_clean.mean()`. -/
def meanOf (clean : List (Int × ℚ)) : ℚ :=
  (clean.map Prod.snd).sum / (clean.length : ℚ)

/-- The persistence-fallback triple: `preds = mean`,
`lower = preds - 0.1*np.abs(preds)`, `upper = preds + 0.1*np.abs(preds)`. -/
def fallbackTriple (mean : ℚ) : ℚ × ℚ × ℚ :=
  (mean, mean - |mean| / 10, mean + |mean| / 10)

/-- Whether `res.get_forecast(steps=steps)` / `conf_int` succeed, i.e. every
requested forecast step is produced without an exception. -/
def predOk {M : Type} (lib : SarimaxLib M) (m : M) (steps : Nat) : Bool :=
  (List.range steps).all fun i => ((lib.predictAt m i).toOption).isSome

/-- The step-`i` forecast triple of a fitted model (meaningful when
`predOk` holds). -/
def predTriple {M : Type} (lib : SarimaxLib M) (m : M) (i : Nat) :
    ℚ × ℚ × ℚ :=
  ((lib.predictAt m i).toOption).getD (0, 0, 0)

/-- Embedding of `forecast_series(years, values, steps=5, order=(1,1,1))`
(forecast.py).  Drops missing values; raises `NoDataError` when nothing
remains; tries the SARIMAX fit and on any fitting exception falls back to the
persistence forecast; on a successful fit computes the forecast and 95%
confidence interval *outside* the `try`, so an exception there propagates
(`externalError`); assembles history and forecast over the union index. -/
def forecast_series {M : Type} (lib : SarimaxLib M) (years : List Int)
    (values : List (Option ℚ)) (steps : Nat := 5)
    (order : Int × Int × Int := (1, 1, 1)) :
    Except FcError (List ForecastRow) :=
  let clean := cleanSeries years values
  if clean.isEmpty then .error .NoDataError
  else
    let last := lastYear clean
    match lib.fit clean order with
    | .error _ =>
        .ok (buildRows years values last steps
          fun _ => fallbackTriple (meanOf clean))
    | .ok m =>
        if predOk lib m steps then
          .ok (buildRows years values last steps (predTriple lib m))
        else .error .externalError

/-! ## The batch generator (`scripts/generate_forecasts.py`)

The upstream dataset (`load_data()`) is a country-year table.  A row carries
the country name (the script only iterates over non-null country values, so
the name is total here), an optional ISO code, the year, and the numeric
metric columns, modelled as a partial map from column name to an optional
(possibly missing) value; `Dataset.cols` records which metric columns exist
(`cdf.get(metric)` returns `None` for a column that is absent). -/

structure DataRow where
  country : String
  iso_code : Option String
  year : Int
  vals : String → Option ℚ

structure Dataset where
  rows : List DataRow
  cols : List String

/-- `sorted(df["country"].dropna().unique())`. -/
def countriesOf (ds : Dataset) : List String :=
  ((ds.rows.map fun r => r.country).dedup).insertionSort (· ≤ ·)

/-- `cdf = df[df["country"] == country].sort_values("year")`. -/
def countryRows (ds : Dataset) (c : String) : List DataRow :=
  (ds.rows.filter fun r => r.country == c).insertionSort
    fun a b => a.year ≤ b.year

/-- One row of the combined per-metric forecast table: the engine's columns
plus the caller-attached identifier columns. -/
structure OutRow where
  year : Int
  y : Option ℚ
  y_pred : Option ℚ
  y_lower : Option ℚ
  y_upper : Option ℚ
  country : String
  iso_code : String
  metric : String
deriving DecidableEq, Repr

/-- `fdf["country"] = country; fdf["iso_code"] = iso_val;
fdf["metric"] = metric`. -/
def attachIds (r : List ForecastRow) (c iso m : String) : List OutRow :=
  r.map fun row =>
    ⟨row.year, row.y, row.y_pred, row.y_lower, row.y_upper, c, iso, m⟩

/-- Number of non-missing values of `metric` for country `c`
(`values.dropna().shape[0]`). -/
def nonMissingCount (ds : Dataset) (metric : String) (c : String) : Nat :=
  ((countryRows ds c).filterMap fun r => r.vals metric).length

/-- `iso = cdf["iso_code"].dropna().unique(); iso[0] if len(iso) > 0
else ""`. -/
def isoOf (cdf : List DataRow) : String :=
  ((cdf.filterMap fun r => r.iso_code).head?).getD ""

/-- The body of the per-country loop of `generate_forecasts`: skip when the
metric column is absent, skip when fewer than `min_points` non-missing
values, try the engine (horizon `steps`, the engine's default order
`(1,1,1)`), skip (log) on any exception, and otherwise attach identifier
columns.  `none` means the country contributes nothing to the table. -/
def processCountry {M : Type} (lib : SarimaxLib M) (ds : Dataset)
    (metric : String) (steps min_points : Nat) (c : String) :
    Option (List OutRow) :=
  if metric ∈ ds.cols then
    let cdf := countryRows ds c
    let years := cdf.map fun r => r.year
    let values := cdf.map fun r => r.vals metric
    if (values.filterMap id).length < min_points then none
    else
      match forecast_series lib years values steps with
      | .error _ => none
      | .ok fdf => some (attachIds fdf c (isoOf cdf) metric)
  else none

/-- `combined = pd.concat(out_rows, ignore_index=True)`: the successful
per-country results for one metric, concatenated in country order. -/
def metricTable {M : Type} (lib : SarimaxLib M) (ds : Dataset)
    (metric : String) (steps min_points : Nat) : List OutRow :=
  (countriesOf ds).flatMap fun c =>
    (processCountry lib ds metric steps min_points c).getD []

/-- One row of the global CO₂ forecast table (`gf`): the engine's columns
plus the `metric` tag; the script attaches no country columns here. -/
structure GlobalRow where
  year : Int
  y : Option ℚ
  y_pred : Option ℚ
  y_lower : Option ℚ
  y_upper : Option ℚ
  metric : String
deriving DecidableEq, Repr

/-- The distinct years of the dataset, ascending (`df.groupby("year")`). -/
def yearsOf (ds : Dataset) : List Int :=
  ((ds.rows.map fun r => r.year).dedup).insertionSort (· ≤ ·)

/-- `df.groupby("year")["co2"].sum()` at year `y`: pandas `sum` skips
missing values (an all-missing group sums to 0). -/
def sumCO2At (ds : Dataset) (y : Int) : ℚ :=
  ((ds.rows.filter fun r => r.year == y).map
    fun r => (r.vals "co2").getD 0).sum

/-- `gdf = df.groupby("year", as_index=False)["co2"].sum()
.sort_values("year")`: the global aggregate series.  The sums are never
missing, so `values.dropna().shape[0]` is just the number of distinct
years. -/
def globalSeries (ds : Dataset) : List (Int × ℚ) :=
  (yearsOf ds).map fun y => (y, sumCO2At ds y)

/-- The global CO₂ block of `generate_forecasts`, which the script wraps in
one big `try/except` (a missing `co2` column or an engine exception is
logged and skipped): forecast the aggregate series with the same engine and
the same horizon, tagging rows with the distinct metric `"co2_global"`. -/
def globalOutOf {M : Type} (lib : SarimaxLib M) (ds : Dataset)
    (steps min_points : Nat) : Option (List GlobalRow) :=
  if "co2" ∈ ds.cols then
    let gs := globalSeries ds
    if min_points ≤ gs.length then
      match forecast_series lib (gs.map Prod.fst)
          (gs.map fun p => some p.2) steps with
      | .ok r =>
          some (r.map fun row =>
            ⟨row.year, row.y, row.y_pred, row.y_lower, row.y_upper,
              "co2_global"⟩)
      | .error _ => none
    else none
  else none

/-- The persisted outputs of one `generate_forecasts` run: one combined
table per metric that produced at least one forecast
(`data/forecasts_{metric}.csv`), and the optional global CO₂ table
(`data/forecasts_global_co2.csv`). -/
structure GenOut where
  perMetric : List (String × List OutRow)
  globalOut : Option (List GlobalRow)
deriving DecidableEq, Repr

/-- Embedding of `generate_forecasts(metrics=None, steps=5, min_points=6)`:
`metrics = ["co2", "gdp"]` when not given; for each metric, the combined
per-country table (written only when non-empty), plus the global CO₂
forecast. -/
def generate_forecasts {M : Type} (lib : SarimaxLib M) (ds : Dataset)
    (metrics : Option (List String) := none) (steps : Nat := 5)
    (min_points : Nat := 6) : GenOut :=
  let ms := metrics.getD ["co2", "gdp"]
  { perMetric := ms.filterMap fun m =>
      let t := metricTable lib ds m steps min_points
      if t.isEmpty then none else some (m, t),
    globalOut := globalOutOf lib ds steps min_points }

/-! ## Concrete oracles and datasets used by the closed witness theorems -/

/-- An oracle whose fit always succeeds and whose forecast is the constant
triple `(3, 2, 4)`. -/
def okLib : SarimaxLib Unit :=
  { fit := fun _ _ => .ok ()
    predictAt := fun _ _ => .ok (3, 2, 4) }

/-- An oracle whose model fitting always raises (exercises the persistence
fallback). -/
def failFitLib : SarimaxLib Unit :=
  { fit := fun _ _ => .error (), predictAt := fun _ _ => .ok (0, 0, 0) }

/-- An oracle whose fit succeeds but whose post-fit forecast computation
raises (exercises the uncaught code path after the `try` block). -/
def failPredLib : SarimaxLib Unit :=
  { fit := fun _ _ => .ok (), predictAt := fun _ _ => .error () }

/-- Result of `forecast_series okLib [0, 1] [some 1, some 2] 1`
(also of the same call with the input positionally reversed). -/
def wRowsA : List ForecastRow :=
  [⟨0, some 1, none, none, none⟩, ⟨1, some 2, none, none, none⟩,
   ⟨2, none, some 3, some 2, some 4⟩]

/-- Result of `forecast_series okLib [0] [some 1] 1`. -/
def wRowsK : List ForecastRow :=
  [⟨0, some 1, none, none, none⟩, ⟨1, none, some 3, some 2, some 4⟩]

/-- Result of `forecast_series okLib [0] [some 1] 2`, and likewise of
`forecast_series okLib [0, 1, 2] [some 1, none, none] 2` (horizon overlap:
input years 1 and 2 carry missing values past the last observed year 0). -/
def wRowsK1 : List ForecastRow :=
  [⟨0, some 1, none, none, none⟩, ⟨1, none, some 3, some 2, some 4⟩,
   ⟨2, none, some 3, some 2, some 4⟩]

/-- A tiny concrete dataset: one country "A" with two observed CO₂ values
(years 0 and 1). -/
def wDs : Dataset :=
  { rows :=
      [{ country := "A", iso_code := some "AA", year := 0,
         vals := fun m => if m = "co2" then some 1 else none },
       { country := "A", iso_code := some "AA", year := 1,
         vals := fun m => if m = "co2" then some 2 else none }]
    cols := ["co2"] }

/-- Result of `processCountry okLib wDs "co2" 1 1 "A"` (the combined table
of the only country of `wDs`). -/
def wOut : List OutRow :=
  [⟨0, some 1, none, none, none, "A", "AA", "co2"⟩,
   ⟨1, some 2, none, none, none, "A", "AA", "co2"⟩,
   ⟨2, none, some 3, some 2, some 4, "A", "AA", "co2"⟩]

/-- The global CO₂ table of `generate_forecasts okLib wDs none 1 1`. -/
def wG : List GlobalRow :=
  [⟨0, some 1, none, none, none, "co2_global"⟩,
   ⟨1, some 2, none, none, none, "co2_global"⟩,
   ⟨2, none, some 3, some 2, some 4, "co2_global"⟩]

/-! ## Basic lemmas about the embedded operations -/

theorem nodup_keys_zip {α β : Type _} {as : List α} {bs : List β}
    (h : as.Nodup) : ((as.zip bs).map Prod.fst).Nodup := by
  induction as generalizing bs with
  | nil => simp
  | cons a t ih =>
      cases bs with
      | nil => simp
      | cons b u =>
          rw [List.zip_cons_cons, List.map_cons, List.nodup_cons]
          refine ⟨fun hmem => ?_, ih (List.nodup_cons.mp h).2⟩
          obtain ⟨⟨x, y⟩, hxy, hx⟩ := List.mem_map.mp hmem
          have hx' : x = a := hx
          exact (List.nodup_cons.mp h).1 (hx' ▸ (List.of_mem_zip hxy).1)

theorem eq_of_mem_keys_nodup {α β : Type _} {l : List (α × β)}
    (h : (l.map Prod.fst).Nodup) {p q : α × β} (hp : p ∈ l) (hq : q ∈ l)
    (he : p.1 = q.1) : p = q := by
  induction l with
  | nil => cases hp
  | cons a t ih =>
      rw [List.map_cons, List.nodup_cons] at h
      rcases List.mem_cons.mp hp with rfl | hp' <;>
        rcases List.mem_cons.mp hq with rfl | hq'
      · rfl
      · exact absurd (he ▸ List.mem_map_of_mem Prod.fst hq') h.1
      · exact absurd (he ▸ List.mem_map_of_mem Prod.fst hp') h.1
      · exact ih h.2 hp' hq'

theorem mem_cleanSeries {years : List Int} {values : List (Option ℚ)}
    {yr : Int} {v : ℚ} :
    (yr, v) ∈ cleanSeries years values ↔ (yr, some v) ∈ years.zip values := by
  simp only [cleanSeries, List.mem_filterMap]
  constructor
  · rintro ⟨⟨a, b⟩, hmem, hf⟩
    obtain ⟨w, hb, hw⟩ := Option.map_eq_some'.mp hf
    obtain ⟨rfl, rfl⟩ := Prod.mk.injEq .. ▸ hw
    exact hb ▸ hmem
  · intro h
    exact ⟨(yr, some v), h, rfl⟩

theorem clean_year_mem {years : List Int} {values : List (Option ℚ)}
    {yr : Int} {v : ℚ} (h : (yr, v) ∈ cleanSeries years values) :
    yr ∈ years :=
  (List.of_mem_zip (mem_cleanSeries.mp h)).1

theorem lookupVal_some_imp {years : List Int} {values : List (Option ℚ)}
    {yr : Int} {v : ℚ} (h : lookupVal years values yr = some v) :
    (yr, v) ∈ cleanSeries years values := by
  unfold lookupVal at h
  obtain ⟨p, hfind, hp2⟩ := Option.bind_eq_some.mp h
  have hmem := List.mem_of_find?_eq_some hfind
  have hkey : p.1 = yr := by simpa using List.find?_some hfind
  exact mem_cleanSeries.mpr (by
    have : p = (yr, some v) := Prod.ext hkey hp2
    exact this ▸ hmem)

theorem lookupVal_eq_some_iff {years : List Int} {values : List (Option ℚ)}
    {yr : Int} {v : ℚ} (hnd : years.Nodup) :
    lookupVal years values yr = some v ↔
      (yr, some v) ∈ years.zip values := by
  constructor
  · intro h
    exact mem_cleanSeries.mp (lookupVal_some_imp h)
  · intro h
    unfold lookupVal
    cases hfind : (years.zip values).find? fun p => p.1 == yr with
    | none =>
        exact absurd (by simp : ((yr, some v).1 == yr) = true)
          (by simpa using List.find?_eq_none.mp hfind _ h)
    | some p =>
        have hmem := List.mem_of_find?_eq_some hfind
        have hkey : p.1 = yr := by simpa using List.find?_some hfind
        have : p = (yr, some v) :=
          eq_of_mem_keys_nodup (nodup_keys_zip hnd) hmem h (by simp [hkey])
        simp [this]

theorem year_le_lastYear {clean : List (Int × ℚ)} {yr : Int} {v : ℚ}
    (h : (yr, v) ∈ clean) : yr ≤ lastYear clean := by
  have hmem : yr ∈ clean.map Prod.fst := List.mem_map_of_mem Prod.fst h
  have h1 := List.le_maximum_of_mem' hmem
  cases hmax : (clean.map Prod.fst).maximum with
  | bot => rw [hmax] at h1; exact absurd h1 (by simp)
  | coe m =>
      rw [hmax] at h1
      rw [lastYear, hmax]
      simpa using h1

theorem lastYear_mem {clean : List (Int × ℚ)} (h : clean ≠ []) :
    lastYear clean ∈ clean.map Prod.fst := by
  have hlen : 0 < (clean.map Prod.fst).length := by
    simpa [List.length_pos] using h
  have hnb := List.maximum_ne_bot_of_length_pos hlen
  cases hmax : (clean.map Prod.fst).maximum with
  | bot => exact absurd hmax hnb
  | coe m =>
      rw [lastYear, hmax]
      simpa using List.maximum_mem hmax

theorem mem_forecastYears {last : Int} {steps : Nat} {yr : Int} :
    yr ∈ forecastYears last steps ↔
      last + 1 ≤ yr ∧ yr ≤ last + (steps : Int) := by
  simp only [forecastYears, List.mem_map, List.mem_range]
  constructor
  · rintro ⟨i, hi, rfl⟩
    omega
  · rintro ⟨h1, h2⟩
    exact ⟨(yr - (last + 1)).toNat, by omega, by omega⟩

theorem mem_allYears {years : List Int} {last : Int} {steps : Nat} {yr : Int} :
    yr ∈ allYears years last steps ↔
      yr ∈ years ∨ yr ∈ forecastYears last steps := by
  unfold allYears
  rw [(List.perm_insertionSort _ _).mem_iff, List.mem_dedup, List.mem_append]

theorem allYears_nodup (years : List Int) (last : Int) (steps : Nat) :
    (allYears years last steps).Nodup :=
  ((List.perm_insertionSort _ _).nodup_iff).mpr (List.nodup_dedup _)

theorem allYears_sorted (years : List Int) (last : Int) (steps : Nat) :
    (allYears years last steps).Sorted (· < ·) :=
  (List.sorted_insertionSort _ _).lt_of_le (allYears_nodup years last steps)

theorem allYears_toFinset (years : List Int) (last : Int) (steps : Nat) :
    (allYears years last steps).toFinset =
      years.toFinset ∪ (forecastYears last steps).toFinset := by
  ext a
  simp [mem_allYears, List.mem_toFinset, Finset.mem_union]

theorem allYears_length (years : List Int) (last : Int) (steps : Nat) :
    (allYears years last steps).length =
      (years.toFinset ∪ (forecastYears last steps).toFinset).card := by
  unfold allYears
  rw [(List.perm_insertionSort _ _).length_eq,
    ← List.toFinset_card_of_nodup (List.nodup_dedup _)]
  rw [← List.toFinset_append]
  congr 1
  ext a
  simp [List.mem_dedup]

theorem rowAt_year (years : List Int) (values : List (Option ℚ)) (last : Int)
    (steps : Nat) (fc : Nat → ℚ × ℚ × ℚ) (yr : Int) :
    (rowAt years values last steps fc yr).year = yr := by
  unfold rowAt
  split <;> rfl

theorem rowAt_y (years : List Int) (values : List (Option ℚ)) (last : Int)
    (steps : Nat) (fc : Nat → ℚ × ℚ × ℚ) (yr : Int) :
    (rowAt years values last steps fc yr).y = lookupVal years values yr := by
  unfold rowAt
  split <;> rfl

theorem rowAt_y_pred (years : List Int) (values : List (Option ℚ)) (last : Int)
    (steps : Nat) (fc : Nat → ℚ × ℚ × ℚ) (yr : Int) :
    (rowAt years values last steps fc yr).y_pred =
      if yr ∈ forecastYears last steps then
        some (fc (yr - (last + 1)).toNat).1
      else none := by
  unfold rowAt
  split <;> simp_all

theorem rowAt_y_lower (years : List Int) (values : List (Option ℚ)) (last : Int)
    (steps : Nat) (fc : Nat → ℚ × ℚ × ℚ) (yr : Int) :
    (rowAt years values last steps fc yr).y_lower =
      if yr ∈ forecastYears last steps then
        some (fc (yr - (last + 1)).toNat).2.1
      else none := by
  unfold rowAt
  split <;> simp_all

theorem rowAt_y_upper (years : List Int) (values : List (Option ℚ)) (last : Int)
    (steps : Nat) (fc : Nat → ℚ × ℚ × ℚ) (yr : Int) :
    (rowAt years values last steps fc yr).y_upper =
      if yr ∈ forecastYears last steps then
        some (fc (yr - (last + 1)).toNat).2.2
      else none := by
  unfold rowAt
  split <;> simp_all

theorem mem_buildRows {years : List Int} {values : List (Option ℚ)}
    {last : Int} {steps : Nat} {fc : Nat → ℚ × ℚ × ℚ} {row : ForecastRow} :
    row ∈ buildRows years values last steps fc ↔
      ∃ yr, yr ∈ allYears years last steps ∧
        row = rowAt years values last steps fc yr := by
  simp only [buildRows, List.mem_map]
  constructor
  · rintro ⟨yr, h1, rfl⟩
    exact ⟨yr, h1, rfl⟩
  · rintro ⟨yr, h1, rfl⟩
    exact ⟨yr, h1, rfl⟩

theorem nodup_forecastYears (last : Int) (steps : Nat) :
    (forecastYears last steps).Nodup := by
  refine List.Nodup.map ?_ (List.nodup_range steps)
  intro i j hij
  dsimp only at hij
  omega

theorem length_forecastYears (last : Int) (steps : Nat) :
    (forecastYears last steps).length = steps := by
  simp [forecastYears]

theorem forecast_series_noData_iff {M : Type} (lib : SarimaxLib M)
    (years : List Int) (values : List (Option ℚ)) (steps : Nat)
    (order : Int × Int × Int) :
    forecast_series lib years values steps order = .error .NoDataError ↔
      cleanSeries years values = [] := by
  unfold forecast_series
  by_cases h : cleanSeries years values = []
  · simp [h]
  · have hclb : (cleanSeries years values).isEmpty = false := by
      simpa [List.isEmpty_iff] using h
    cases hf : lib.fit (cleanSeries years values) order with
    | error e => simp_all
    | ok m =>
        cases hp : predOk lib m steps with
        | false => simp_all
        | true => simp_all

theorem forecast_series_fallback_eq {M : Type} (lib : SarimaxLib M)
    (years : List Int) (values : List (Option ℚ)) (steps : Nat)
    (order : Int × Int × Int) (hne : cleanSeries years values ≠ []) {e : Unit}
    (hf : lib.fit (cleanSeries years values) order = .error e) :
    forecast_series lib years values steps order =
      .ok (buildRows years values (lastYear (cleanSeries years values)) steps
        fun _ => fallbackTriple (meanOf (cleanSeries years values))) := by
  have hclb : (cleanSeries years values).isEmpty = false := by
    simpa [List.isEmpty_iff] using hne
  unfold forecast_series
  simp [hclb, hf]

theorem forecast_series_fit_eq {M : Type} (lib : SarimaxLib M)
    (years : List Int) (values : List (Option ℚ)) (steps : Nat)
    (order : Int × Int × Int) (hne : cleanSeries years values ≠ []) {m : M}
    (hf : lib.fit (cleanSeries years values) order = .ok m)
    (hp : predOk lib m steps = true) :
    forecast_series lib years values steps order =
      .ok (buildRows years values (lastYear (cleanSeries years values)) steps
        (predTriple lib m)) := by
  have hclb : (cleanSeries years values).isEmpty = false := by
    simpa [List.isEmpty_iff] using hne
  unfold forecast_series
  simp [hclb, hf, hp]

theorem forecast_series_ok_cases {M : Type} {lib : SarimaxLib M}
    {years : List Int} {values : List (Option ℚ)} {steps : Nat}
    {order : Int × Int × Int} {r : List ForecastRow}
    (h : forecast_series lib years values steps order = .ok r) :
    cleanSeries years values ≠ [] ∧
      ((∃ e, lib.fit (cleanSeries years values) order = .error e ∧
          r = buildRows years values (lastYear (cleanSeries years values))
                steps
                fun _ => fallbackTriple (meanOf (cleanSeries years values))) ∨
        (∃ m, lib.fit (cleanSeries years values) order = .ok m ∧
          predOk lib m steps = true ∧
          r = buildRows years values (lastYear (cleanSeries years values))
                steps (predTriple lib m))) := by
  unfold forecast_series at h
  by_cases hcl : cleanSeries years values = []
  · simp [hcl] at h
  · have hclb : (cleanSeries years values).isEmpty = false := by
      simpa [List.isEmpty_iff] using hcl
    refine ⟨hcl, ?_⟩
    cases hf : lib.fit (cleanSeries years values) order with
    | error e =>
        left
        simp only [hclb, Bool.false_eq_true, if_false, hf] at h
        exact ⟨e, rfl, (Except.ok.injEq .. ▸ h).symm⟩
    | ok m =>
        right
        cases hp : predOk lib m steps with
        | false => simp [hclb, hf, hp] at h
        | true =>
            simp only [hclb, Bool.false_eq_true, if_false, hf, hp,
              if_true] at h
            exact ⟨m, rfl, hp, (Except.ok.injEq .. ▸ h).symm⟩

theorem forecast_series_external_iff {M : Type} (lib : SarimaxLib M)
    (years : List Int) (values : List (Option ℚ)) (steps : Nat)
    (order : Int × Int × Int) :
    forecast_series lib years values steps order = .error .externalError ↔
      cleanSeries years values ≠ [] ∧
        ∃ m, lib.fit (cleanSeries years values) order = .ok m ∧
          predOk lib m steps = false := by
  unfold forecast_series
  by_cases h : cleanSeries years values = []
  · simp [h]
  · have hclb : (cleanSeries years values).isEmpty = false := by
      simpa [List.isEmpty_iff] using h
    cases hf : lib.fit (cleanSeries years values) order with
    | error e => simp_all
    | ok m =>
        cases hp : predOk lib m steps with
        | false => simp_all
        | true => simp_all

/-! ## Row-structure lemmas shared by the claims -/

theorem buildRows_years (years : List Int) (values : List (Option ℚ))
    (last : Int) (steps : Nat) (fc : Nat → ℚ × ℚ × ℚ) :
    (buildRows years values last steps fc).map (fun row => row.year) =
      allYears years last steps := by
  unfold buildRows
  rw [List.map_map]
  have : ((fun row => row.year) ∘ rowAt years values last steps fc) =
      fun yr => yr := by
    funext yr
    exact rowAt_year ..
  rw [this, List.map_id_fun']
  rfl

theorem hist_rows_iff {years : List Int} {values : List (Option ℚ)}
    {last : Int} {steps : Nat} {fc : Nat → ℚ × ℚ × ℚ}
    (hnd : years.Nodup) (yr : Int) (v : ℚ) :
    (∃ row ∈ buildRows years values last steps fc,
        row.year = yr ∧ row.y = some v) ↔
      (yr, v) ∈ cleanSeries years values := by
  constructor
  · rintro ⟨row, hmem, hyr, hy⟩
    obtain ⟨yr', _, rfl⟩ := mem_buildRows.mp hmem
    rw [rowAt_year] at hyr
    subst hyr
    rw [rowAt_y] at hy
    exact lookupVal_some_imp hy
  · intro h
    have hyy : yr ∈ years := clean_year_mem h
    refine ⟨rowAt years values last steps fc yr,
      mem_buildRows.mpr ⟨yr, mem_allYears.mpr (Or.inl hyy), rfl⟩,
      rowAt_year .., ?_⟩
    rw [rowAt_y]
    exact (lookupVal_eq_some_iff hnd).mpr (mem_cleanSeries.mp h)

theorem pred_rows_iff {years : List Int} {values : List (Option ℚ)}
    {last : Int} {steps : Nat} {fc : Nat → ℚ × ℚ × ℚ} (yr : Int) :
    (∃ row ∈ buildRows years values last steps fc,
        row.year = yr ∧ row.y_pred.isSome) ↔
      yr ∈ forecastYears last steps := by
  constructor
  · rintro ⟨row, hmem, hyr, hy⟩
    obtain ⟨yr', _, rfl⟩ := mem_buildRows.mp hmem
    rw [rowAt_year] at hyr
    subst hyr
    rw [rowAt_y_pred] at hy
    by_contra hmemf
    simp [hmemf] at hy
  · intro h
    refine ⟨rowAt years values last steps fc yr,
      mem_buildRows.mpr ⟨yr, mem_allYears.mpr (Or.inr h), rfl⟩,
      rowAt_year .., ?_⟩
    rw [rowAt_y_pred]
    simp [h]

theorem buildRows_mutual_exclusion {years : List Int}
    {values : List (Option ℚ)} {steps : Nat} {fc : Nat → ℚ × ℚ × ℚ}
    {row : ForecastRow}
    (hmem : row ∈ buildRows years values (lastYear (cleanSeries years values))
      steps fc) :
    ¬(row.y.isSome ∧ row.y_pred.isSome) := by
  rintro ⟨hy, hp⟩
  obtain ⟨yr, _, rfl⟩ := mem_buildRows.mp hmem
  rw [rowAt_y] at hy
  obtain ⟨v, hv⟩ := Option.isSome_iff_exists.mp hy
  have h1 : yr ≤ lastYear (cleanSeries years values) :=
    year_le_lastYear (lookupVal_some_imp hv)
  rw [rowAt_y_pred] at hp
  by_cases hf : yr ∈ forecastYears (lastYear (cleanSeries years values)) steps
  · have := (mem_forecastYears.mp hf).1
    omega
  · simp [hf] at hp

theorem forecast_series_ok_buildRows {M : Type} {lib : SarimaxLib M}
    {years : List Int} {values : List (Option ℚ)} {steps : Nat}
    {order : Int × Int × Int} {r : List ForecastRow}
    (h : forecast_series lib years values steps order = .ok r) :
    ∃ fc, r = buildRows years values (lastYear (cleanSeries years values))
      steps fc := by
  rcases (forecast_series_ok_cases h).2 with ⟨e, _, hb⟩ | ⟨m, _, _, hb⟩
  · exact ⟨_, hb⟩
  · exact ⟨_, hb⟩

theorem pred_transfer {years : List Int} {values : List (Option ℚ)}
    {last : Int} {k : Nat} {fc : Nat → ℚ × ℚ × ℚ} {row : ForecastRow}
    (hmem : row ∈ buildRows years values last k fc)
    (hp : row.y_pred.isSome) :
    ∃ row' ∈ buildRows years values last (k + 1) fc,
      row'.year = row.year ∧ row'.y_pred = row.y_pred ∧
      row'.y_lower = row.y_lower ∧ row'.y_upper = row.y_upper := by
  obtain ⟨yr, _, rfl⟩ := mem_buildRows.mp hmem
  have hfk : yr ∈ forecastYears last k := by
    rw [rowAt_y_pred] at hp
    by_contra hmemf
    simp [hmemf] at hp
  have hfk1 : yr ∈ forecastYears last (k + 1) := by
    rw [mem_forecastYears] at hfk ⊢
    push_cast
    omega
  refine ⟨rowAt years values last (k + 1) fc yr,
    mem_buildRows.mpr ⟨yr, mem_allYears.mpr (Or.inr hfk1), rfl⟩,
    by rw [rowAt_year, rowAt_year], ?_, ?_, ?_⟩
  · rw [rowAt_y_pred, rowAt_y_pred, if_pos hfk, if_pos hfk1]
  · rw [rowAt_y_lower, rowAt_y_lower, if_pos hfk, if_pos hfk1]
  · rw [rowAt_y_upper, rowAt_y_upper, if_pos hfk, if_pos hfk1]

/-! ## The claims -/

/-- C1: for every input with at least one non-missing value (guaranteed by
the call returning a table) and `steps ≥ 1`, the table's historical rows
exactly reproduce the input's non-missing `(year, value)` pairs in the
observed column, its forecast rows (non-null point forecast) span exactly
the years `last+1 .. last+steps`, and `lastYear` is the maximum year with a
non-missing value — regardless of gaps in the historical series. -/
theorem C1_forecast_table_structure {M : Type} {lib : SarimaxLib M}
    {years : List Int} {values : List (Option ℚ)} {steps : Nat}
    {order : Int × Int × Int} {r : List ForecastRow}
    (hnd : years.Nodup) (hsteps : 1 ≤ steps)
    (hr : forecast_series lib years values steps order = .ok r) :
    (∀ yr v, (∃ row ∈ r, row.year = yr ∧ row.y = some v) ↔
        (yr, v) ∈ cleanSeries years values) ∧
    (∀ yr, (∃ row ∈ r, row.year = yr ∧ row.y_pred.isSome) ↔
        (lastYear (cleanSeries years values) + 1 ≤ yr ∧
          yr ≤ lastYear (cleanSeries years values) + (steps : Int))) ∧
    (∀ yr v, (yr, v) ∈ cleanSeries years values →
        yr ≤ lastYear (cleanSeries years values)) ∧
    (∃ v, (lastYear (cleanSeries years values), v) ∈
        cleanSeries years values) := by
  have hne := (forecast_series_ok_cases hr).1
  obtain ⟨fc, rfl⟩ := forecast_series_ok_buildRows hr
  refine ⟨fun yr v => hist_rows_iff hnd yr v,
    fun yr => (pred_rows_iff yr).trans mem_forecastYears,
    fun yr v h => year_le_lastYear h, ?_⟩
  obtain ⟨⟨y, v⟩, hm, he⟩ := List.mem_map.mp (lastYear_mem hne)
  have he' : y = lastYear (cleanSeries years values) := he
  exact ⟨v, he' ▸ hm⟩

/-- C2: `forecast_series` raises `NoDataError` iff, after discarding the
missing entries, zero observations remain; and this is the only *input*
condition that aborts: whenever the external library's post-fit forecast
computation does not itself raise, every input with at least one
non-missing value produces a table. -/
theorem C2_noData_iff {M : Type} (lib : SarimaxLib M) (years : List Int)
    (values : List (Option ℚ)) (steps : Nat) (order : Int × Int × Int) :
    (forecast_series lib years values steps order = .error .NoDataError ↔
      cleanSeries years values = []) ∧
    (cleanSeries years values ≠ [] →
      (∀ m i, ((lib.predictAt m i).toOption).isSome) →
      ∃ r, forecast_series lib years values steps order = .ok r) := by
  refine ⟨forecast_series_noData_iff lib years values steps order, ?_⟩
  intro hne hpred
  cases hf : lib.fit (cleanSeries years values) order with
  | error e => exact ⟨_, forecast_series_fallback_eq lib years values steps
      order hne hf⟩
  | ok m =>
      have hp : predOk lib m steps = true := by
        unfold predOk
        simp only [List.all_eq_true]
        intro i _
        exact hpred m i
      exact ⟨_, forecast_series_fit_eq lib years values steps order hne hf hp⟩

/-- C3: when model fitting raises, the fallback gives every forecast year
the point forecast `mean` (arithmetic mean of non-missing observed values),
lower bound `mean - 0.1*|mean|`, upper bound `mean + 0.1*|mean|`, and hence
`lower ≤ point ≤ upper`. -/
theorem C3_fallback_formulas {M : Type} {lib : SarimaxLib M}
    {years : List Int} {values : List (Option ℚ)} {steps : Nat}
    {order : Int × Int × Int} {e : Unit}
    (hne : cleanSeries years values ≠ [])
    (hf : lib.fit (cleanSeries years values) order = .error e) :
    ∃ r, forecast_series lib years values steps order = .ok r ∧
      ∀ row ∈ r, row.y_pred.isSome →
        row.y_pred = some (meanOf (cleanSeries years values)) ∧
        row.y_lower = some (meanOf (cleanSeries years values) -
          |meanOf (cleanSeries years values)| / 10) ∧
        row.y_upper = some (meanOf (cleanSeries years values) +
          |meanOf (cleanSeries years values)| / 10) ∧
        meanOf (cleanSeries years values) -
            |meanOf (cleanSeries years values)| / 10 ≤
          meanOf (cleanSeries years values) ∧
        meanOf (cleanSeries years values) ≤
          meanOf (cleanSeries years values) +
            |meanOf (cleanSeries years values)| / 10 := by
  refine ⟨_, forecast_series_fallback_eq lib years values steps order hne hf,
    ?_⟩
  intro row hmem hp
  obtain ⟨yr, _, rfl⟩ := mem_buildRows.mp hmem
  have hfk : yr ∈ forecastYears (lastYear (cleanSeries years values)) steps := by
    rw [rowAt_y_pred] at hp
    by_contra hmemf
    simp [hmemf] at hp
  have habs : (0 : ℚ) ≤ |meanOf (cleanSeries years values)| := abs_nonneg _
  refine ⟨?_, ?_, ?_, by linarith, by linarith⟩
  · rw [rowAt_y_pred, if_pos hfk]
    rfl
  · rw [rowAt_y_lower, if_pos hfk]
    rfl
  · rw [rowAt_y_upper, if_pos hfk]
    rfl

/-- C4 (amended): any exception raised by the model-fitting routine is
absorbed into the persistence fallback and a table is still returned;
the only errors `forecast_series` ever raises are `NoDataError` (exactly on
all-missing input) and an uncaught external exception from the post-fit
forecast/confidence-interval computation, which — being outside the `try`
block — propagates to the caller. -/
theorem C4_error_propagation {M : Type} (lib : SarimaxLib M)
    (years : List Int) (values : List (Option ℚ)) (steps : Nat)
    (order : Int × Int × Int) :
    (∀ e, lib.fit (cleanSeries years values) order = .error e →
      cleanSeries years values ≠ [] →
      ∃ r, forecast_series lib years values steps order = .ok r) ∧
    (∀ err, forecast_series lib years values steps order = .error err →
      (err = .NoDataError ∧ cleanSeries years values = []) ∨
      (err = .externalError ∧ ∃ m,
        lib.fit (cleanSeries years values) order = .ok m ∧
        predOk lib m steps = false)) := by
  constructor
  · intro e hf hne
    exact ⟨_, forecast_series_fallback_eq lib years values steps order hne hf⟩
  · intro err herr
    cases err with
    | NoDataError =>
        exact Or.inl ⟨rfl,
          (forecast_series_noData_iff lib years values steps order).mp herr⟩
    | externalError =>
        exact Or.inr ⟨rfl,
          ((forecast_series_external_iff lib years values steps order).mp
            herr).2⟩

/-- C4 (counterexample to the claim as stated): an input with a non-missing
value on which the engine still raises an exception other than
`NoDataError` — the fit succeeds but the post-fit forecast computation
raises, and that exception is *not* absorbed into the fallback, because the
source's `try` block ends before `res.get_forecast(steps)` is called. -/
theorem C4_counterexample :
    cleanSeries [0] [some 1] ≠ [] ∧
    forecast_series failPredLib [0] [some 1] 5 (1, 1, 1) =
      .error .externalError := by
  constructor
  · decide
  · rfl

/-- C5: in every row of any table `forecast_series` returns — fitted-model
path or fallback path alike — the observed column and the point-forecast
column are never both non-null. -/
theorem C5_mutual_exclusion {M : Type} {lib : SarimaxLib M}
    {years : List Int} {values : List (Option ℚ)} {steps : Nat}
    {order : Int × Int × Int} {r : List ForecastRow}
    (hr : forecast_series lib years values steps order = .ok r) :
    ∀ row ∈ r, ¬(row.y.isSome ∧ row.y_pred.isSome) := by
  obtain ⟨fc, rfl⟩ := forecast_series_ok_buildRows hr
  intro row hmem
  exact buildRows_mutual_exclusion hmem

/-- C6: for a fixed input series and model order, the `k+1`-step call
extends the `k`-step call: every forecast row of the `k`-step table
reappears with the same year and the same point forecast (and bounds), and
the `k+1`-step table has a forecast year the `k`-step table lacks. -/
theorem C6_monotonic_horizon {M : Type} {lib : SarimaxLib M}
    {years : List Int} {values : List (Option ℚ)} {k : Nat}
    {order : Int × Int × Int} {rk rk1 : List ForecastRow}
    (hk : forecast_series lib years values k order = .ok rk)
    (hk1 : forecast_series lib years values (k + 1) order = .ok rk1) :
    (∀ row ∈ rk, row.y_pred.isSome →
      ∃ row' ∈ rk1, row'.year = row.year ∧ row'.y_pred = row.y_pred) ∧
    (∃ row' ∈ rk1, row'.y_pred.isSome ∧
      ∀ row ∈ rk, row.y_pred.isSome → row.year ≠ row'.year) := by
  obtain ⟨hne, hcase⟩ := forecast_series_ok_cases hk
  obtain ⟨-, hcase1⟩ := forecast_series_ok_cases hk1
  have hsame : ∃ fc, rk = buildRows years values
      (lastYear (cleanSeries years values)) k fc ∧
      rk1 = buildRows years values
        (lastYear (cleanSeries years values)) (k + 1) fc := by
    rcases hcase with ⟨e, hf, hb⟩ | ⟨m, hf, hp, hb⟩ <;>
      rcases hcase1 with ⟨e', hf', hb'⟩ | ⟨m', hf', hp', hb'⟩
    · exact ⟨_, hb, hb'⟩
    · rw [hf] at hf'; cases hf'
    · rw [hf] at hf'; cases hf'
    · rw [hf] at hf'
      cases hf'
      exact ⟨_, hb, hb'⟩
  obtain ⟨fc, rfl, rfl⟩ := hsame
  constructor
  · intro row hmem hp
    obtain ⟨row', hmem', hyear, hpred, -, -⟩ := pred_transfer hmem hp
    exact ⟨row', hmem', hyear, hpred⟩
  · set last := lastYear (cleanSeries years values) with hlast
    have hnew : last + 1 + (k : Int) ∈ forecastYears last (k + 1) := by
      rw [mem_forecastYears]
      push_cast
      omega
    refine ⟨rowAt years values last (k + 1) fc (last + 1 + (k : Int)),
      mem_buildRows.mpr ⟨_, mem_allYears.mpr (Or.inr hnew), rfl⟩, ?_, ?_⟩
    · rw [rowAt_y_pred, if_pos hnew]
      rfl
    · intro row hmem hp
      obtain ⟨yr, _, rfl⟩ := mem_buildRows.mp hmem
      have hfk : yr ∈ forecastYears last k := by
        rw [rowAt_y_pred] at hp
        by_contra hmemf
        simp [hmemf] at hp
      rw [rowAt_year, rowAt_year]
      have := (mem_forecastYears.mp hfk).2
      omega

/-- C9 (implicit): the rows of every returned table are sorted in strictly
ascending year order and years are pairwise distinct (for duplicate-free
input years), regardless of the positional order in which the caller passed
the input years. -/
theorem C9_rows_sorted {M : Type} {lib : SarimaxLib M} {years : List Int}
    {values : List (Option ℚ)} {steps : Nat} {order : Int × Int × Int}
    {r : List ForecastRow}
    (hnd : years.Nodup) (hsteps : 1 ≤ steps)
    (hr : forecast_series lib years values steps order = .ok r) :
    (r.map fun row => row.year).Sorted (· < ·) ∧
      (r.map fun row => row.year).Nodup := by
  obtain ⟨fc, rfl⟩ := forecast_series_ok_buildRows hr
  rw [buildRows_years]
  exact ⟨allYears_sorted .., allYears_nodup ..⟩

/-- C10 (implicit edge case): the result has one row per year in the union
of the input years and the forecast years; a row whose year lies in both
carries a null observed value together with non-null forecast values; the
row count is at most `#input years + steps`, and strictly less as soon as
some input year falls inside the forecast horizon. -/
theorem C10_horizon_overlap {M : Type} {lib : SarimaxLib M}
    {years : List Int} {values : List (Option ℚ)} {steps : Nat}
    {order : Int × Int × Int} {r : List ForecastRow} {y0 : Int}
    (hnd : years.Nodup)
    (hr : forecast_series lib years values steps order = .ok r) :
    ((r.map fun row => row.year).toFinset =
        years.toFinset ∪
          (forecastYears (lastYear (cleanSeries years values))
            steps).toFinset) ∧
    (∀ row ∈ r, row.year ∈ years →
        row.year ∈ forecastYears (lastYear (cleanSeries years values))
          steps →
        row.y = none ∧ row.y_pred.isSome) ∧
    r.length ≤ years.length + steps ∧
    (y0 ∈ years →
      y0 ∈ forecastYears (lastYear (cleanSeries years values)) steps →
      r.length < years.length + steps) := by
  obtain ⟨fc, rfl⟩ := forecast_series_ok_buildRows hr
  set last := lastYear (cleanSeries years values) with hlast
  have hyears := buildRows_years years values last steps fc
  have hlen : (buildRows years values last steps fc).length =
      (years.toFinset ∪ (forecastYears last steps).toFinset).card := by
    have h1 : (buildRows years values last steps fc).length =
        (allYears years last steps).length := by
      rw [← hyears, List.length_map]
    rw [h1, allYears_length]
  have hcardf : (forecastYears last steps).toFinset.card = steps := by
    rw [List.toFinset_card_of_nodup (nodup_forecastYears last steps),
      length_forecastYears]
  have hcardy : years.toFinset.card = years.length :=
    List.toFinset_card_of_nodup hnd
  refine ⟨by rw [hyears, allYears_toFinset], ?_, ?_, ?_⟩
  · intro row hmem hin hfc
    obtain ⟨yr, _, rfl⟩ := mem_buildRows.mp hmem
    rw [rowAt_year] at hin hfc
    constructor
    · rw [rowAt_y]
      cases hl : lookupVal years values yr with
      | none => rfl
      | some v =>
          have h1 : yr ≤ last := year_le_lastYear (lookupVal_some_imp hl)
          have h2 := (mem_forecastYears.mp hfc).1
          omega
    · rw [rowAt_y_pred, if_pos hfc]
      rfl
  · rw [hlen]
    calc (years.toFinset ∪ (forecastYears last steps).toFinset).card
        ≤ years.toFinset.card + (forecastYears last steps).toFinset.card :=
          Finset.card_union_le _ _
      _ ≤ years.length + steps := by rw [hcardf, hcardy]
  · intro h1 h2
    have hinter : 1 ≤ (years.toFinset ∩
        (forecastYears last steps).toFinset).card := by
      refine Finset.card_pos.mpr ⟨y0, ?_⟩
      rw [Finset.mem_inter, List.mem_toFinset, List.mem_toFinset]
      exact ⟨h1, h2⟩
    have := Finset.card_union_add_card_inter years.toFinset
      (forecastYears last steps).toFinset
    rw [hlen]
    omega

/-- C1 witness: the structure theorem evaluated on the concrete series
`years = [0, 1]`, `values = [1, 2]`, one forecast step. -/
theorem C1_witness :
    ([0, 1] : List Int).Nodup ∧ 1 ≤ 1 ∧
    forecast_series okLib [0, 1] [some 1, some 2] 1 (1, 1, 1) = .ok wRowsA ∧
    ((∀ yr v, (∃ row ∈ wRowsA, row.year = yr ∧ row.y = some v) ↔
        (yr, v) ∈ cleanSeries [0, 1] [some 1, some 2]) ∧
     (∀ yr, (∃ row ∈ wRowsA, row.year = yr ∧ row.y_pred.isSome) ↔
        (lastYear (cleanSeries [0, 1] [some 1, some 2]) + 1 ≤ yr ∧
          yr ≤ lastYear (cleanSeries [0, 1] [some 1, some 2]) +
            ((1 : Nat) : Int))) ∧
     (∀ yr v, (yr, v) ∈ cleanSeries [0, 1] [some 1, some 2] →
        yr ≤ lastYear (cleanSeries [0, 1] [some 1, some 2])) ∧
     (∃ v, (lastYear (cleanSeries [0, 1] [some 1, some 2]), v) ∈
        cleanSeries [0, 1] [some 1, some 2])) := by
  have hr : forecast_series okLib [0, 1] [some 1, some 2] 1 (1, 1, 1) =
      .ok wRowsA := by decide
  exact ⟨by decide, by decide, hr,
    C1_forecast_table_structure (by decide) (by decide) hr⟩

/-- C2 witness: on `years = [0]`, `values = [1]` with a non-raising
post-fit oracle, the engine does not raise `NoDataError` and returns a
table. -/
theorem C2_witness :
    (forecast_series okLib [0] [some 1] 1 (1, 1, 1) = .error .NoDataError ↔
      cleanSeries [0] [some 1] = []) ∧
    (∃ r, forecast_series okLib [0] [some 1] 1 (1, 1, 1) = .ok r) := by
  have h := C2_noData_iff okLib [0] [some 1] 1 (1, 1, 1)
  exact ⟨h.1, h.2 (by decide) (fun m i => rfl)⟩

/-- C3 witness: the fallback theorem evaluated with an always-failing fit
on `values = [1, 2]` (mean 3/2). -/
theorem C3_witness :
    cleanSeries [0, 1] [some 1, some 2] ≠ [] ∧
    failFitLib.fit (cleanSeries [0, 1] [some 1, some 2]) (1, 1, 1) =
      .error () ∧
    (∃ r, forecast_series failFitLib [0, 1] [some 1, some 2] 1 (1, 1, 1) =
        .ok r ∧
      ∀ row ∈ r, row.y_pred.isSome →
        row.y_pred = some (meanOf (cleanSeries [0, 1] [some 1, some 2])) ∧
        row.y_lower = some (meanOf (cleanSeries [0, 1] [some 1, some 2]) -
          |meanOf (cleanSeries [0, 1] [some 1, some 2])| / 10) ∧
        row.y_upper = some (meanOf (cleanSeries [0, 1] [some 1, some 2]) +
          |meanOf (cleanSeries [0, 1] [some 1, some 2])| / 10) ∧
        meanOf (cleanSeries [0, 1] [some 1, some 2]) -
            |meanOf (cleanSeries [0, 1] [some 1, some 2])| / 10 ≤
          meanOf (cleanSeries [0, 1] [some 1, some 2]) ∧
        meanOf (cleanSeries [0, 1] [some 1, some 2]) ≤
          meanOf (cleanSeries [0, 1] [some 1, some 2]) +
            |meanOf (cleanSeries [0, 1] [some 1, some 2])| / 10) :=
  ⟨by decide, rfl, C3_fallback_formulas (by decide) rfl⟩

/-- C4 witness: on `years = [0]`, `values = [1]` with an oracle whose
post-fit computation raises, the escaping error is `externalError` with a
successful fit and a failing forecast computation. -/
theorem C4_witness :
    cleanSeries [0] [some 1] ≠ [] ∧
    ((FcError.externalError = FcError.NoDataError ∧
        cleanSeries [0] [some 1] = []) ∨
     (FcError.externalError = FcError.externalError ∧ ∃ m,
        failPredLib.fit (cleanSeries [0] [some 1]) (1, 1, 1) = .ok m ∧
        predOk failPredLib m 5 = false)) :=
  ⟨by decide,
    (C4_error_propagation failPredLib [0] [some 1] 5 (1, 1, 1)).2
      .externalError (by decide)⟩

/-- C5 witness: mutual exclusion on the concrete table `wRowsA`. -/
theorem C5_witness :
    forecast_series okLib [0, 1] [some 1, some 2] 1 (1, 1, 1) = .ok wRowsA ∧
    ∀ row ∈ wRowsA, ¬(row.y.isSome ∧ row.y_pred.isSome) := by
  have hr : forecast_series okLib [0, 1] [some 1, some 2] 1 (1, 1, 1) =
      .ok wRowsA := by decide
  exact ⟨hr, C5_mutual_exclusion hr⟩

/-- C6 witness: the 2-step call on `years = [0]`, `values = [1]` strictly
extends the 1-step call. -/
theorem C6_witness :
    forecast_series okLib [0] [some 1] 1 (1, 1, 1) = .ok wRowsK ∧
    forecast_series okLib [0] [some 1] 2 (1, 1, 1) = .ok wRowsK1 ∧
    ((∀ row ∈ wRowsK, row.y_pred.isSome →
        ∃ row' ∈ wRowsK1, row'.year = row.year ∧
          row'.y_pred = row.y_pred) ∧
     (∃ row' ∈ wRowsK1, row'.y_pred.isSome ∧
        ∀ row ∈ wRowsK, row.y_pred.isSome → row.year ≠ row'.year)) := by
  have hk : forecast_series okLib [0] [some 1] 1 (1, 1, 1) = .ok wRowsK := by
    decide
  have hk1 : forecast_series okLib [0] [some 1] 2 (1, 1, 1) =
      .ok wRowsK1 := by decide
  exact ⟨hk, hk1, C6_monotonic_horizon hk hk1⟩

/-- C9 witness: the input years passed out of ascending order
(`[1, 0]`) still yield a strictly ascending, duplicate-free result. -/
theorem C9_witness :
    ([1, 0] : List Int).Nodup ∧ 1 ≤ 1 ∧
    forecast_series okLib [1, 0] [some 2, some 1] 1 (1, 1, 1) =
      .ok wRowsA ∧
    ((wRowsA.map fun row => row.year).Sorted (· < ·) ∧
      (wRowsA.map fun row => row.year).Nodup) := by
  have hr : forecast_series okLib [1, 0] [some 2, some 1] 1 (1, 1, 1) =
      .ok wRowsA := by decide
  exact ⟨by decide, by decide, hr, C9_rows_sorted (by decide) (by decide) hr⟩

/-- C10 witness: `years = [0, 1, 2]` with missing values after the last
observed year 0 and a 2-step horizon — the horizon coincides with input
years 1 and 2, the table has 3 rows (fewer than 3 + 2), and the
overlapping rows have null observed and non-null forecast values. -/
theorem C10_witness :
    ([0, 1, 2] : List Int).Nodup ∧
    forecast_series okLib [0, 1, 2] [some 1, none, none] 2 (1, 1, 1) =
      .ok wRowsK1 ∧
    (((wRowsK1.map fun row => row.year).toFinset =
        ([0, 1, 2] : List Int).toFinset ∪
          (forecastYears
            (lastYear (cleanSeries [0, 1, 2] [some 1, none, none]))
            2).toFinset) ∧
     (∀ row ∈ wRowsK1, row.year ∈ ([0, 1, 2] : List Int) →
        row.year ∈ forecastYears
          (lastYear (cleanSeries [0, 1, 2] [some 1, none, none])) 2 →
        row.y = none ∧ row.y_pred.isSome) ∧
     wRowsK1.length ≤ ([0, 1, 2] : List Int).length + 2 ∧
     ((1 : Int) ∈ ([0, 1, 2] : List Int) →
       (1 : Int) ∈ forecastYears
         (lastYear (cleanSeries [0, 1, 2] [some 1, none, none])) 2 →
       wRowsK1.length < ([0, 1, 2] : List Int).length + 2)) := by
  have hr : forecast_series okLib [0, 1, 2] [some 1, none, none] 2
      (1, 1, 1) = .ok wRowsK1 := by decide
  exact ⟨by decide, hr,
    @C10_horizon_overlap Unit okLib [0, 1, 2] [some 1, none, none] 2
      (1, 1, 1) wRowsK1 1 (by decide) hr⟩

/-! ## Lemmas about the batch generator -/

theorem countriesOf_nodup (ds : Dataset) : (countriesOf ds).Nodup :=
  ((List.perm_insertionSort _ _).nodup_iff).mpr (List.nodup_dedup _)

theorem processCountry_eq_none {M : Type} (lib : SarimaxLib M) (ds : Dataset)
    (metric : String) (steps min_points : Nat) (c : String)
    (h : nonMissingCount ds metric c < min_points) :
    processCountry lib ds metric steps min_points c = none := by
  have hcount : (((countryRows ds c).map fun r => r.vals metric).filterMap
      id).length = nonMissingCount ds metric c := by
    rw [List.filterMap_map]
    rfl
  simp only [processCountry]
  by_cases hm : metric ∈ ds.cols
  · rw [if_pos hm, hcount, if_pos h]
  · rw [if_neg hm]

theorem processCountry_some_shape {M : Type} {lib : SarimaxLib M}
    {ds : Dataset} {metric : String} {steps min_points : Nat} {c : String}
    {out : List OutRow}
    (h : processCountry lib ds metric steps min_points c = some out) :
    ∃ fdf, forecast_series lib ((countryRows ds c).map fun r => r.year)
        ((countryRows ds c).map fun r => r.vals metric) steps = .ok fdf ∧
      out = attachIds fdf c (isoOf (countryRows ds c)) metric := by
  simp only [processCountry] at h
  by_cases hm : metric ∈ ds.cols
  · rw [if_pos hm] at h
    by_cases hg : (((countryRows ds c).map fun r => r.vals metric).filterMap
        id).length < min_points
    · rw [if_pos hg] at h
      cases h
    · rw [if_neg hg] at h
      cases hf : forecast_series lib ((countryRows ds c).map fun r => r.year)
          ((countryRows ds c).map fun r => r.vals metric) steps with
      | error e => rw [hf] at h; cases h
      | ok fdf =>
          rw [hf] at h
          exact ⟨fdf, rfl, (Option.some.injEq .. ▸ h).symm⟩
  · rw [if_neg hm] at h
    cases h

theorem attachIds_ids {r : List ForecastRow} {c iso m : String} {row : OutRow}
    (h : row ∈ attachIds r c iso m) : row.country = c ∧ row.metric = m := by
  obtain ⟨frow, _, rfl⟩ := List.mem_map.mp h
  exact ⟨rfl, rfl⟩

theorem mem_processCountry_getD {M : Type} {lib : SarimaxLib M}
    {ds : Dataset} {metric : String} {steps min_points : Nat} {c : String}
    {row : OutRow}
    (h : row ∈ (processCountry lib ds metric steps min_points c).getD []) :
    row.country = c ∧ row.metric = metric := by
  cases hp : processCountry lib ds metric steps min_points c with
  | none => rw [hp] at h; cases h
  | some out =>
      rw [hp] at h
      obtain ⟨fdf, _, rfl⟩ := processCountry_some_shape hp
      exact attachIds_ids h

theorem mem_metricTable {M : Type} {lib : SarimaxLib M} {ds : Dataset}
    {metric : String} {steps min_points : Nat} {row : OutRow} :
    row ∈ metricTable lib ds metric steps min_points ↔
      ∃ c ∈ countriesOf ds,
        row ∈ (processCountry lib ds metric steps min_points c).getD [] :=
  List.mem_flatMap

theorem flatMap_filter_country {l : List String} {f : String → List OutRow}
    (hnd : l.Nodup)
    (hc : ∀ c' ∈ l, ∀ row ∈ f c', row.country = c')
    {c : String} (hcl : c ∈ l) :
    ((l.flatMap f).filter fun row => row.country == c) = f c := by
  induction l with
  | nil => cases hcl
  | cons a t ih =>
      rw [List.flatMap_cons, List.filter_append]
      by_cases hac : a = c
      · subst hac
        have h1 : ((f a).filter fun row => row.country == a) = f a := by
          rw [List.filter_eq_self]
          intro row hrow
          simp [hc a (List.mem_cons_self a t) row hrow]
        have h2 : ((t.flatMap f).filter fun row => row.country == a) = [] := by
          rw [List.filter_eq_nil_iff]
          intro row hrow
          obtain ⟨c', hct, hrw⟩ := List.mem_flatMap.mp hrow
          have hcc := hc c' (List.mem_cons_of_mem _ hct) row hrw
          have hne : c' ≠ a := by
            rintro rfl
            exact (List.nodup_cons.mp hnd).1 hct
          simp [hcc, hne]
        rw [h1, h2, List.append_nil]
      · have hcl' : c ∈ t := by
          rcases List.mem_cons.mp hcl with heq | h
          · exact absurd heq.symm hac
          · exact h
        have h1 : ((f a).filter fun row => row.country == c) = [] := by
          rw [List.filter_eq_nil_iff]
          intro row hrow
          simp [hc a (List.mem_cons_self a t) row hrow, hac]
        rw [h1, List.nil_append]
        exact ih (List.nodup_cons.mp hnd).2
          (fun c' h => hc c' (List.mem_cons_of_mem _ h)) hcl'

theorem yearsOf_nodup (ds : Dataset) : (yearsOf ds).Nodup :=
  ((List.perm_insertionSort _ _).nodup_iff).mpr (List.nodup_dedup _)

theorem globalSeries_keys (ds : Dataset) :
    (globalSeries ds).map Prod.fst = yearsOf ds := by
  unfold globalSeries
  rw [List.map_map]
  have : (Prod.fst ∘ fun y : Int => (y, sumCO2At ds y)) = fun y => y := by
    funext y
    rfl
  rw [this, List.map_id_fun']
  rfl

theorem clean_global (gs : List (Int × ℚ)) :
    cleanSeries (gs.map Prod.fst) (gs.map fun p => some p.2) = gs := by
  unfold cleanSeries
  rw [List.zip_map', List.filterMap_map]
  have : ((fun p : Int × Option ℚ => p.2.map fun v => (p.1, v)) ∘
      fun a : Int × ℚ => (a.1, some a.2)) = some := by
    funext a
    rfl
  rw [this]
  have h2 : (some : Int × ℚ → Option (Int × ℚ)) = some ∘ fun a => a := rfl
  rw [h2, List.filterMap_eq_map, List.map_id_fun']
  rfl

theorem mem_globalSeries {ds : Dataset} {yr : Int} {v : ℚ} :
    (yr, v) ∈ globalSeries ds ↔ yr ∈ yearsOf ds ∧ v = sumCO2At ds yr := by
  unfold globalSeries
  rw [List.mem_map]
  constructor
  · rintro ⟨y, hy, heq⟩
    obtain ⟨rfl, rfl⟩ := Prod.mk.injEq .. ▸ heq
    exact ⟨hy, rfl⟩
  · rintro ⟨hy, rfl⟩
    exact ⟨yr, hy, rfl⟩

theorem mem_map_tag_iff {r : List ForecastRow} {yr : Int} :
    (∃ row ∈ r.map fun row =>
        (⟨row.year, row.y, row.y_pred, row.y_lower, row.y_upper,
          "co2_global"⟩ : GlobalRow),
      row.year = yr ∧ row.y_pred.isSome) ↔
    (∃ frow ∈ r, frow.year = yr ∧ frow.y_pred.isSome) := by
  constructor
  · rintro ⟨row, hrow, hyr, hp⟩
    obtain ⟨frow, hfrow, rfl⟩ := List.mem_map.mp hrow
    exact ⟨frow, hfrow, hyr, hp⟩
  · rintro ⟨frow, hfrow, hyr, hp⟩
    exact ⟨_, List.mem_map.mpr ⟨frow, hfrow, rfl⟩, hyr, hp⟩

theorem globalOutOf_some_shape {M : Type} {lib : SarimaxLib M} {ds : Dataset}
    {steps min_points : Nat} {g : List GlobalRow}
    (h : globalOutOf lib ds steps min_points = some g) :
    "co2" ∈ ds.cols ∧ min_points ≤ (globalSeries ds).length ∧
      ∃ r, forecast_series lib ((globalSeries ds).map Prod.fst)
          ((globalSeries ds).map fun p => some p.2) steps = .ok r ∧
        g = r.map fun row =>
          ⟨row.year, row.y, row.y_pred, row.y_lower, row.y_upper,
            "co2_global"⟩ := by
  simp only [globalOutOf] at h
  by_cases hco2 : "co2" ∈ ds.cols
  · rw [if_pos hco2] at h
    by_cases hmin : min_points ≤ (globalSeries ds).length
    · rw [if_pos hmin] at h
      cases hf : forecast_series lib ((globalSeries ds).map Prod.fst)
          ((globalSeries ds).map fun p => some p.2) steps with
      | error e => rw [hf] at h; cases h
      | ok r =>
          rw [hf] at h
          exact ⟨hco2, hmin, r, rfl, (Option.some.injEq .. ▸ h).symm⟩
    · rw [if_neg hmin] at h
      cases h
  · rw [if_neg hco2] at h
    cases h

/-- C7: the batch generator runs with steps 5, min_points 6 and engine
order (1,1,1) by default; per metric it skips (contributes no rows for)
every country with fewer than `min_points` non-missing values; the combined
table restricted to one country equals exactly that country's own
processing result — so one country's failure (engine error, which makes its
result `none`) never perturbs the rows of the others; every successful
per-country result lands in the one combined table, which is recorded for
the metric whenever non-empty. -/
theorem C7_batch_skip_policy {M : Type} (lib : SarimaxLib M) (ds : Dataset)
    (metric : String) (steps min_points : Nat) :
    (generate_forecasts lib ds = generate_forecasts lib ds none 5 6) ∧
    (∀ ys vs st, forecast_series lib ys vs st =
      forecast_series lib ys vs st (1, 1, 1)) ∧
    (∀ c, nonMissingCount ds metric c < min_points →
      processCountry lib ds metric steps min_points c = none ∧
      ∀ row ∈ metricTable lib ds metric steps min_points,
        row.country ≠ c) ∧
    (∀ c ∈ countriesOf ds,
      ((metricTable lib ds metric steps min_points).filter
          fun row => row.country == c) =
        (processCountry lib ds metric steps min_points c).getD []) ∧
    (∀ c ∈ countriesOf ds, ∀ out,
      processCountry lib ds metric steps min_points c = some out →
      ∀ row ∈ out, row ∈ metricTable lib ds metric steps min_points) ∧
    (∀ ms, metric ∈ ms →
      metricTable lib ds metric steps min_points ≠ [] →
      (metric, metricTable lib ds metric steps min_points) ∈
        (generate_forecasts lib ds (some ms) steps min_points).perMetric) := by
  refine ⟨rfl, fun ys vs st => rfl, ?_, ?_, ?_, ?_⟩
  · intro c h
    have hnone := processCountry_eq_none lib ds metric steps min_points c h
    refine ⟨hnone, ?_⟩
    intro row hrow heq
    obtain ⟨c', hc', hrow'⟩ := mem_metricTable.mp hrow
    have hcc : c' = c := by
      rw [← (mem_processCountry_getD hrow').1, heq]
    rw [hcc, hnone] at hrow'
    cases hrow'
  · intro c hc
    unfold metricTable
    exact flatMap_filter_country (countriesOf_nodup ds)
      (fun c' _ row hrow => (mem_processCountry_getD hrow).1) hc
  · intro c hc out hout row hrow
    refine mem_metricTable.mpr ⟨c, hc, ?_⟩
    rw [hout]
    simpa using hrow
  · intro ms hms hne
    refine List.mem_filterMap.mpr ⟨metric, hms, ?_⟩
    have hfalse : (metricTable lib ds metric steps min_points).isEmpty =
        false := by
      simpa [List.isEmpty_iff] using hne
    simp [hfalse]

/-- C8: when the batch run (default metric list) produces a global table,
every row carries the distinct identifier `"co2_global"` (which no row of
any per-country table carries); the observed value of each year is the sum
of the CO₂ metric over all dataset rows of that year; and the forecast rows
span exactly the `steps`-year horizon after the last year of the aggregate
series — the same engine and the same horizon as the per-country calls. -/
theorem C8_global_forecast {M : Type} (lib : SarimaxLib M) (ds : Dataset)
    (steps min_points : Nat) (g : List GlobalRow)
    (hg : (generate_forecasts lib ds none steps min_points).globalOut =
      some g) :
    (∀ row ∈ g, row.metric = "co2_global") ∧
    (∀ row ∈ g, row.y =
      if row.year ∈ yearsOf ds then some (sumCO2At ds row.year) else none) ∧
    (∀ yr, (∃ row ∈ g, row.year = yr ∧ row.y_pred.isSome) ↔
      (lastYear (globalSeries ds) + 1 ≤ yr ∧
        yr ≤ lastYear (globalSeries ds) + (steps : Int))) ∧
    ("co2_global" ∉ (["co2", "gdp"] : List String)) ∧
    (∀ p ∈ (generate_forecasts lib ds none steps min_points).perMetric,
      p.1 ≠ "co2_global" ∧ ∀ row ∈ p.2, row.metric ≠ "co2_global") := by
  have hg' : globalOutOf lib ds steps min_points = some g := hg
  obtain ⟨hco2, hmin, r, hok, rfl⟩ := globalOutOf_some_shape hg'
  have hclean := clean_global (globalSeries ds)
  have hlast : lastYear (cleanSeries ((globalSeries ds).map Prod.fst)
      ((globalSeries ds).map fun p => some p.2)) =
      lastYear (globalSeries ds) := by rw [hclean]
  obtain ⟨fc, rfl⟩ := forecast_series_ok_buildRows hok
  have hkeys : ((globalSeries ds).map Prod.fst).Nodup := by
    rw [globalSeries_keys]
    exact yearsOf_nodup ds
  refine ⟨?_, ?_, ?_, by decide, ?_⟩
  · intro row hrow
    obtain ⟨frow, _, rfl⟩ := List.mem_map.mp hrow
    rfl
  · intro row hrow
    obtain ⟨frow, hfrow, rfl⟩ := List.mem_map.mp hrow
    obtain ⟨yr, _, rfl⟩ := mem_buildRows.mp hfrow
    dsimp only
    rw [rowAt_y, rowAt_year]
    by_cases hys : yr ∈ yearsOf ds
    · rw [if_pos hys]
      have hmem : (yr, sumCO2At ds yr) ∈ globalSeries ds :=
        mem_globalSeries.mpr ⟨hys, rfl⟩
      refine (lookupVal_eq_some_iff hkeys).mpr ?_
      rw [List.zip_map']
      exact List.mem_map.mpr ⟨(yr, sumCO2At ds yr), hmem, rfl⟩
    · rw [if_neg hys]
      cases hl : lookupVal ((globalSeries ds).map Prod.fst)
          ((globalSeries ds).map fun p => some p.2) yr with
      | none => rfl
      | some v =>
          have := lookupVal_some_imp hl
          rw [hclean] at this
          exact absurd (mem_globalSeries.mp this).1 hys
  · intro yr
    rw [← hlast]
    exact mem_map_tag_iff.trans ((pred_rows_iff yr).trans mem_forecastYears)
  · intro p hp
    simp only [generate_forecasts, Option.getD_none] at hp
    obtain ⟨m, hm, hpm⟩ := List.mem_filterMap.mp hp
    by_cases hemp : (metricTable lib ds m steps min_points).isEmpty
    · rw [if_pos hemp] at hpm
      cases hpm
    · rw [if_neg hemp] at hpm
      obtain rfl := (Option.some.injEq .. ▸ hpm).symm
      have hm' : m = "co2" ∨ m = "gdp" := by simpa using hm
      constructor
      · rcases hm' with rfl | rfl
        · show ("co2" : String) ≠ "co2_global"
          decide
        · show ("gdp" : String) ≠ "co2_global"
          decide
      · intro row hrow heq
        obtain ⟨c, _, hrow'⟩ := mem_metricTable.mp hrow
        have hthis := (mem_processCountry_getD hrow').2
        rw [heq] at hthis
        rcases hm' with rfl | rfl
        · exact absurd hthis (by decide)
        · exact absurd hthis (by decide)

/-- C7 witness: on the concrete dataset `wDs` (one country "A", horizon 1,
minimum 1): country "B" (0 non-missing points) is skipped and contributes no
rows; country "A"'s block of the combined table is exactly its own result
`wOut`; the non-empty combined table is recorded for metric "co2". -/
theorem C7_witness :
    (generate_forecasts okLib wDs = generate_forecasts okLib wDs none 5 6) ∧
    nonMissingCount wDs "co2" "B" < 1 ∧
    (processCountry okLib wDs "co2" 1 1 "B" = none ∧
      ∀ row ∈ metricTable okLib wDs "co2" 1 1, row.country ≠ "B") ∧
    ("A" ∈ countriesOf wDs ∧
      ((metricTable okLib wDs "co2" 1 1).filter
          fun row => row.country == "A") =
        (processCountry okLib wDs "co2" 1 1 "A").getD []) ∧
    (processCountry okLib wDs "co2" 1 1 "A" = some wOut ∧
      ∀ row ∈ wOut, row ∈ metricTable okLib wDs "co2" 1 1) ∧
    (metricTable okLib wDs "co2" 1 1 ≠ [] ∧
      ("co2", metricTable okLib wDs "co2" 1 1) ∈
        (generate_forecasts okLib wDs (some ["co2"]) 1 1).perMetric) := by
  have h := C7_batch_skip_policy okLib wDs "co2" 1 1
  have hA : processCountry okLib wDs "co2" 1 1 "A" = some wOut := by decide
  refine ⟨h.1, by decide, h.2.2.1 "B" (by decide),
    ⟨by decide, h.2.2.2.1 "A" (by decide)⟩,
    ⟨hA, fun row hrow =>
      h.2.2.2.2.1 "A" (by decide) wOut hA row hrow⟩,
    by decide, h.2.2.2.2.2 ["co2"] (by decide) (by decide)⟩

/-- C8 witness: the global-aggregate theorem evaluated on `wDs` with
horizon 1: the global table is `wG`, its rows carry `"co2_global"`, its
observed values are the per-year CO₂ sums, and its forecast rows span
exactly the year after the last aggregate year. -/
theorem C8_witness :
    (generate_forecasts okLib wDs none 1 1).globalOut = some wG ∧
    ((∀ row ∈ wG, row.metric = "co2_global") ∧
     (∀ row ∈ wG, row.y =
        if row.year ∈ yearsOf wDs then some (sumCO2At wDs row.year)
        else none) ∧
     (∀ yr, (∃ row ∈ wG, row.year = yr ∧ row.y_pred.isSome) ↔
        (lastYear (globalSeries wDs) + 1 ≤ yr ∧
          yr ≤ lastYear (globalSeries wDs) + ((1 : Nat) : Int))) ∧
     ("co2_global" ∉ (["co2", "gdp"] : List String)) ∧
     (∀ p ∈ (generate_forecasts okLib wDs none 1 1).perMetric,
        p.1 ≠ "co2_global" ∧
        ∀ row ∈ p.2, row.metric ≠ "co2_global")) := by
  have hg : (generate_forecasts okLib wDs none 1 1).globalOut = some wG := by
    show globalOutOf okLib wDs 1 1 = some wG
    have hgs : globalSeries wDs = [(0, 1), (1, 2)] := by
      norm_num [globalSeries, yearsOf, sumCO2At, wDs, List.dedup,
        List.insertionSort, List.orderedInsert]
    have hfor : forecast_series okLib [0, 1] [some 1, some 2] 1 =
        .ok wRowsA := by decide
    simp only [globalOutOf, hgs]
    rw [if_pos (by decide : ("co2" : String) ∈ wDs.cols),
      if_pos (by decide : 1 ≤ ([((0 : Int), (1 : ℚ)), (1, 2)]).length),
      show (([((0 : Int), (1 : ℚ)), (1, 2)]).map Prod.fst) = [0, 1] from rfl,
      show (([((0 : Int), (1 : ℚ)), (1, 2)]).map fun p => some p.2) =
        [some 1, some 2] from rfl, hfor]
    decide
  exact ⟨hg, C8_global_forecast okLib wDs 1 1 wG hg⟩

end CO2Dash
